import Mathlib

/-!
# SevenTV/Common: mutation and versioning engine, moderation messages, bans

A shallow embedding of

* `structures/v3/type.ban.go` (`Ban.HasEffect`),
* `structures/mutations/create_version.emote_m.go` (`EmoteMutation.ToVersion`,
  `EmoteMutation.SetCurrentVersion`),
* `structures/v3/mutations/message.mod_request.go` (`Mutate.SendModRequestMessage`),
* `structures/v3/query/query.messages.go` (`Query.messages`),

followed by the properties of the specification that concern them.

Conventions of the embedding.

* A Go pointer that may be nil is an `Option`; dereferencing `none` is the
  outcome `panic`.
* A call returning `(value, error)` returns a `Result`; the state reachable
  through pointers (the receiver, the database) is returned next to it.
* The document store is a value: a collection keyed by `_id` where the code
  only ever selects by `_id` or updates fields in place (emotes, users), a
  list of documents where it scans or inserts (the v3 collections).
* A failure of the driver itself is an input (`Faults`): the code has a
  branch for each of them.
-/

namespace Common

/-- Go `primitive.ObjectID`. The zero value is `0`. -/
abbrev ObjectID := Nat

/-- Go `primitive.ObjectID.IsZero`. -/
def IsZero (id : ObjectID) : Bool := id == 0

/-! ## `structures/v3/type.ban.go` -/

/-- Go `type BanEffect uint32`: the values of the type are the naturals below
`2 ^ 32`. The only operation the code applies is `&`, which cannot leave that
range, so no reduction modulo `2 ^ 32` is needed. -/
abbrev BanEffect := Nat

/-- Strip the banned user of all permissions. -/
def BanEffectNoPermissions : BanEffect := 1 <<< 0
/-- Prevents the banned user from authenticating. -/
def BanEffectNoAuth : BanEffect := 1 <<< 1
/-- Any object owned by the banned user will no longer be returned by the API. -/
def BanEffectNoOwnership : BanEffect := 1 <<< 2
/-- The banned user is never returned by the API to non-privileged users. -/
def BanEffectMemoryHole : BanEffect := 1 <<< 3
/-- The banned user IP will be blocked from accessing all services. -/
def BanEffectBlockedIP : BanEffect := 1 <<< 4

/-- The keys of `BanEffectMap`. -/
inductive BanEffectKey where
  | NO_PERMISSIONS
  | NO_AUTH
  | NO_OWNERSHIP
  | MEMORY_HOLE
  | IP_BLOCKED
  deriving DecidableEq, Repr

/-- Go `var BanEffectMap = map[string]BanEffect{...}`. -/
def BanEffectMap : BanEffectKey → BanEffect
  | .NO_PERMISSIONS => BanEffectNoPermissions
  | .NO_AUTH => BanEffectNoAuth
  | .NO_OWNERSHIP => BanEffectNoOwnership
  | .MEMORY_HOLE => BanEffectMemoryHole
  | .IP_BLOCKED => BanEffectBlockedIP

/-- Go `type Ban struct`, without the relational fields `Victim` and `Actor`,
which `HasEffect` does not read. -/
structure Ban where
  ID : ObjectID
  VictimID : ObjectID
  ActorID : ObjectID
  Reason : String
  ExpireAt : Nat
  Effects : BanEffect
  deriving DecidableEq, Repr

/-- Go `func (b *Ban) HasEffect(eff BanEffect) bool`. -/
def Ban.HasEffect (b : Ban) (eff : BanEffect) : Bool :=
  (b.Effects &&& eff) == eff

/-- The bitwise OR of the effects named by a list of keys. -/
def orEffects (keys : List BanEffectKey) : BanEffect :=
  keys.foldr (fun k acc => BanEffectMap k ||| acc) 0

/-- The bit position of each of the five single-bit effects. -/
def BanEffectKey.bit : BanEffectKey → Nat
  | .NO_PERMISSIONS => 0
  | .NO_AUTH => 1
  | .NO_OWNERSHIP => 2
  | .MEMORY_HOLE => 3
  | .IP_BLOCKED => 4

/-! ## `structures/mutations/create_version.emote_m.go` -/

namespace Mutations

/-- Modelled from the spec: the role capability identifiers (section 6). The
constants `structures.RolePermission...` are declared outside the sources at
hand; the code below only ever compares them through `HasPermission`. -/
inductive RolePermission where
  | EditEmote
  | EditAnyEmote
  | EditAnyEmoteSet
  | ManageReports
  deriving DecidableEq, Repr

/-- Modelled from the spec: the editor override capability (section 6). -/
inductive UserEditorPermission where
  | ManageOwnedEmotes
  deriving DecidableEq, Repr

/-- Modelled from the spec: the lifecycle status of an asset. The code
distinguishes `EmoteStatusLive` only. -/
inductive EmoteStatus where
  | Deleted
  | Processing
  | Pending
  | Disabled
  | Live
  deriving DecidableEq, Repr

/-- The value of `structures.EmoteStatusLive`. -/
def EmoteStatusLive : EmoteStatus := .Live

/-- An entry of `User.Editors`: the editor and the permission bits granted. -/
structure UserEditor where
  ID : ObjectID
  Permissions : Nat
  deriving DecidableEq, Repr

/-- Go `structures.User`, the fields the code reads. `RoleIDs` stands for
whatever `HasPermission` computes from. -/
structure User where
  ID : ObjectID
  RoleIDs : List ObjectID
  Editors : List UserEditor
  deriving DecidableEq, Repr

/-- The errors the two functions return: the three of package `structures`,
`mongo.ErrNoDocuments`, and any other error of the driver. -/
inductive Error where
  | ErrIncompleteMutation
  | ErrInsufficientPrivilege
  | ErrInternalError
  | ErrNoDocuments
  | Driver
  deriving DecidableEq, Repr

/-- The outcome of a Go call returning `(value, error)`: a value with a nil
error, an error, or a run-time panic (nil pointer dereference). -/
inductive Result (α : Type) where
  | ok (a : α)
  | err (e : Error)
  | panic
  deriving DecidableEq, Repr

/-- Go `structures.EmoteVersioning`. -/
structure EmoteVersioning where
  Tag : String
  Diverged : Bool
  Timestamp : Nat
  deriving DecidableEq, Repr

/-- Go `structures.Emote` in memory, the fields the code reads or writes.
`Owner` is the relational pointer, nil unless loaded. -/
structure Emote where
  ID : ObjectID
  OwnerID : ObjectID
  Status : EmoteStatus
  ParentID : Option ObjectID
  Versioning : Option EmoteVersioning
  Owner : Option User
  deriving DecidableEq, Repr

/-- A document of the emotes collection, stored under its `_id`. -/
structure EmoteDoc where
  owner_id : ObjectID
  status : EmoteStatus
  parent_id : Option ObjectID
  version : Option EmoteVersioning
  deriving DecidableEq, Repr

/-- One staged `$set` entry of an `UpdateMap`, for the fields of `EmoteDoc`. -/
inductive UpdateField where
  | owner_id (v : ObjectID)
  | status (v : EmoteStatus)
  | parent_id (v : ObjectID)
  | version (v : EmoteVersioning)
  deriving DecidableEq, Repr

/-- Go `structures.UpdateMap`: the staged `$set` entries, oldest first. -/
abbrev UpdateMap := List UpdateField

/-- Modelled from the spec: `UpdateMap.Set` is declared outside the sources at
hand; it "stages the value into a persistence directive" (section 4.2), as
`BanBuilder.SetVictimID` and its siblings use it. A later entry for the same
key wins. -/
def UpdateMap.Set (u : UpdateMap) (f : UpdateField) : UpdateMap := u ++ [f]

/-- The effect of one staged entry on a stored document. -/
def UpdateField.apply (d : EmoteDoc) : UpdateField → EmoteDoc
  | .owner_id v => { d with owner_id := v }
  | .status v => { d with status := v }
  | .parent_id v => { d with parent_id := some v }
  | .version v => { d with version := some v }

/-- The effect of an update document on a stored document. -/
def UpdateMap.apply (u : UpdateMap) (d : EmoteDoc) : EmoteDoc :=
  u.foldl UpdateField.apply d

/-- Go `structures.EmoteBuilder`. -/
structure EmoteBuilder where
  Emote : Option Emote
  Update : UpdateMap
  deriving DecidableEq, Repr

/-- Modelled from the spec: `EmoteBuilder.SetParentID` is declared outside the
sources at hand; like the setters of `BanBuilder` it assigns the field of the
entity and stages the same value ("Set `target.parent_id = parent.id`",
section 4.3 step 3). -/
def EmoteBuilder.SetParentID (eb : EmoteBuilder) (id : ObjectID) : EmoteBuilder :=
  { Emote := eb.Emote.map (fun e => { e with ParentID := some id }),
    Update := eb.Update.Set (.parent_id id) }

/-- Modelled from the spec: `EmoteBuilder.SetVersioningData` is declared
outside the sources at hand; it assigns `Versioning` and stages it under the
key `version` (section 4.3 step 3). -/
def EmoteBuilder.SetVersioningData (eb : EmoteBuilder) (v : EmoteVersioning) : EmoteBuilder :=
  { Emote := eb.Emote.map (fun e => { e with Versioning := some v }),
    Update := eb.Update.Set (.version v) }

/-- Go `mutations.EmoteMutation`. -/
structure EmoteMutation where
  EmoteBuilder : Option EmoteBuilder
  Actor : Option User
  deriving DecidableEq, Repr

/-- Go `mutations.CreateVersionOptions`. -/
structure CreateVersionOptions where
  Tag : String
  Diverges : Bool
  deriving DecidableEq, Repr

/-- What the code takes from its surroundings.

* `HasPermission` is `(*User).HasPermission` on a non-nil receiver.
* `HasPermissionNil` is the same method called on a nil receiver: `none` when
  it dereferences the receiver.
* `EditorHasPermission` is `UserEditor.HasPermission`.
* `DecodeToNil` is what `SingleResult.Decode` returns when a document was
  found and the destination is a nil `*User`: an error, or `none` when it
  reports success. In either case the pointer it was handed stays nil, as Go
  passes it by value.
* `Now` is `time.Now()`. -/
structure Env where
  HasPermission : User → RolePermission → Bool
  HasPermissionNil : RolePermission → Option Bool
  EditorHasPermission : UserEditor → UserEditorPermission → Bool
  DecodeToNil : Option Error
  Now : Nat

/-- Failures of the driver, one flag for each kind of call the code issues;
the lookup of a user may fail depending on the id looked up.

`UpdateMany` is set on every run of the program: the update document
`SetCurrentVersion` hands to `UpdateMany` is `{"parent_id": emote.ID}`, without
a `$` operator, and the driver refuses such a document and returns an error.
The flag is kept as an input so that a statement made for every `Faults` also
holds for a driver that would accept the document. -/
structure Faults where
  FindOne : ObjectID → Bool
  FindOneAndUpdate : Bool
  UpdateMany : Bool
  UpdateOne : Bool

/-- The users and emotes collections, keyed by `_id`. -/
structure Store where
  users : ObjectID → Option User
  emotes : ObjectID → Option EmoteDoc

/-- A write issued to the emotes collection. -/
inductive WriteOp where
  | FindOneAndUpdate (id : ObjectID)
  | UpdateMany (parent newParent : ObjectID)
  | UpdateOne (id : ObjectID)
  deriving DecidableEq, Repr

/-- Go `mongo.Instance`: the store and the writes issued so far, oldest
first (a write that the driver fails is issued all the same). -/
structure Mongo where
  store : Store
  writes : List WriteOp

/-- Record a write as issued. -/
def Mongo.issue (inst : Mongo) (op : WriteOp) : Mongo :=
  { inst with writes := inst.writes ++ [op] }

/-- Replace the emotes collection. -/
def Mongo.withEmotes (inst : Mongo) (emotes : ObjectID → Option EmoteDoc) : Mongo :=
  { inst with store := { inst.store with emotes := emotes } }

/-- The call `actor.HasPermission(bit)` for a pointer that may be nil. -/
def HasPermission (env : Env) (actor : Option User) (bit : RolePermission) : Option Bool :=
  match actor with
  | some a => some (env.HasPermission a bit)
  | none => env.HasPermissionNil bit

/-- The error of
`inst.Collection(users).FindOne(ctx, {"_id": id}).Decode(emote.Owner)`
where `emote.Owner` is nil; `none` is a nil error. -/
def findOwner (env : Env) (flt : Faults) (inst : Mongo) (id : ObjectID) : Option Error :=
  if flt.FindOne id then some .Driver
  else
    match inst.store.users id with
    | none => some .ErrNoDocuments
    | some _ => env.DecodeToNil

/-- The loop over the editors of the owner: `ok` becomes true at an entry for
the actor that has `ManageOwnedEmotes`. -/
def editorLoop (env : Env) (a : User) (editors : List UserEditor) (ok : Bool) : Bool :=
  editors.foldl
    (fun ok ed =>
      if ed.ID == a.ID && env.EditorHasPermission ed .ManageOwnedEmotes then true else ok)
    ok

/-- The closure `checkEmoteRights` of `ToVersion`. `ok ()` is `(true, nil)`,
`err e` is `(false, e)`. -/
def checkEmoteRights (env : Env) (flt : Faults) (inst : Mongo) (actor : Option User)
    (emote : Option Emote) : Result Unit :=
  match emote with
  | none => .panic
  | some emote =>
    -- if emote.OwnerID.IsZero() && !actor.HasPermission(EditAnyEmote)
    let denied : Option Bool :=
      if IsZero emote.OwnerID then (HasPermission env actor .EditAnyEmote).map (fun b => !b)
      else some false
    match denied with
    | none => .panic
    | some true => .err .ErrInsufficientPrivilege
    | some false =>
      match actor with
      | none => .panic
      | some a =>
        -- if emote.OwnerID != actor.ID
        if emote.OwnerID != a.ID then
          let ok : Result Bool :=
            -- if emote.Owner == nil
            if emote.Owner.isNone then
              match findOwner env flt inst emote.OwnerID with
              | some err =>
                if err != .ErrNoDocuments then .err err
                else .ok (env.HasPermission a .EditAnyEmote)
              | none =>
                -- for _, ed := range emote.Owner.Editors
                match emote.Owner with
                | none => .panic
                | some owner =>
                  let _ok := editorLoop env a owner.Editors false
                  .ok true
            else .ok false
          match ok with
          | .ok true => .ok ()
          | .ok false => .err .ErrInsufficientPrivilege
          | .err e => .err e
          | .panic => .panic
        else .ok ()

/-- What a call leaves behind: its outcome, the receiver and the database. -/
structure Ret where
  result : Result Unit
  em : EmoteMutation
  inst : Mongo

/-- What `Collection.UpdateMany`, as `SetCurrentVersion` calls it, would store
if the driver accepted its update document read as the assignment it names: on
every document other than `newParent` whose `parent_id` is `parent` and whose
status is live, `parent_id` becomes `newParent`. The driver of the source does
not accept the document (see `Faults`), so in the program this function is
never applied. -/
def UpdateMany (emotes : ObjectID → Option EmoteDoc) (parent newParent : ObjectID) :
    ObjectID → Option EmoteDoc :=
  fun i =>
    (emotes i).map fun d =>
      if i != newParent && d.parent_id == some parent && d.status == EmoteStatusLive then
        { d with parent_id := some newParent }
      else d

/-- Go `Collection.UpdateOne` as `SetCurrentVersion` calls it: `parent_id`
and `version` are unset on the document `id`, when there is one. -/
def UpdateOne (emotes : ObjectID → Option EmoteDoc) (id : ObjectID) :
    ObjectID → Option EmoteDoc :=
  fun i =>
    if i = id then (emotes i).map fun d => { d with parent_id := none, version := none }
    else emotes i

/-- Go `func (em *EmoteMutation) SetCurrentVersion(ctx, inst, emote)`. -/
def SetCurrentVersion (flt : Faults) (inst : Mongo) (em : EmoteMutation)
    (emote : Option Emote) : Ret :=
  match em.EmoteBuilder.bind (fun eb => eb.Emote) with
  | none => ⟨.err .ErrIncompleteMutation, em, inst⟩
  | some cur =>
    match emote with
    | none => ⟨.panic, em, inst⟩
    | some emote =>
      -- Update parent of versioned emotes
      let inst1 := inst.issue (.UpdateMany cur.ID emote.ID)
      if flt.UpdateMany then ⟨.err .Driver, em, inst1⟩
      else
        let inst2 := inst1.withEmotes (UpdateMany inst1.store.emotes cur.ID emote.ID)
        -- Remove versioning data for the emote that became current version
        let inst3 := inst2.issue (.UpdateOne emote.ID)
        if flt.UpdateOne then ⟨.err .Driver, em, inst3⟩
        else ⟨.ok (), em, inst3.withEmotes (UpdateOne inst3.store.emotes emote.ID)⟩

/-- Go `Collection.FindOneAndUpdate` with `ReturnDocument(After)`, selecting
by `_id`: the document after the update, or `none` when the driver fails or no
document has that `_id` (`ErrNoDocuments`), in which case nothing is stored. -/
def FindOneAndUpdate (flt : Faults) (inst : Mongo) (id : ObjectID) (u : UpdateMap) :
    Option EmoteDoc × Mongo :=
  let inst1 := inst.issue (.FindOneAndUpdate id)
  if flt.FindOneAndUpdate then (none, inst1)
  else
    match inst.store.emotes id with
    | none => (none, inst1)
    | some d =>
      (some (u.apply d),
        inst1.withEmotes (fun i => if i = id then some (u.apply d) else inst.store.emotes i))

/-- Go `SingleResult.Decode(targetEmote)`: the fields present in the document
are assigned, the others (and the relational `Owner`) are left as they are. -/
def Emote.Decode (e : Emote) (id : ObjectID) (d : EmoteDoc) : Emote :=
  { e with
    ID := id,
    OwnerID := d.owner_id,
    Status := d.status,
    ParentID := match d.parent_id with | some p => some p | none => e.ParentID,
    Versioning := match d.version with | some v => some v | none => e.Versioning }

/-- Go `func (em *EmoteMutation) ToVersion(ctx, inst, parentEmote, opt)`. -/
def ToVersion (env : Env) (flt : Faults) (inst : Mongo) (em : EmoteMutation)
    (parentEmote : Option Emote) (opt : CreateVersionOptions) : Ret :=
  match em.EmoteBuilder with
  | none => ⟨.err .ErrIncompleteMutation, em, inst⟩
  | some eb =>
    match eb.Emote with
    | none => ⟨.err .ErrIncompleteMutation, em, inst⟩
    | some targetEmote =>
      let actor := em.Actor
      -- Check for the permission to edit emotes
      if (match actor with
          | some a => !env.HasPermission a .EditEmote
          | none => false) then
        ⟨.err .ErrInsufficientPrivilege, em, inst⟩
      else
        -- Check rights for the target emote
        match checkEmoteRights env flt inst actor (some targetEmote) with
        | .err e => ⟨.err e, em, inst⟩
        | .panic => ⟨.panic, em, inst⟩
        | .ok _ =>
          -- Check the rights for the parent emote
          match checkEmoteRights env flt inst actor parentEmote with
          | .err e => ⟨.err e, em, inst⟩
          | .panic => ⟨.panic, em, inst⟩
          | .ok _ =>
            match parentEmote with
            | none => ⟨.panic, em, inst⟩
            | some parent =>
              -- Update the emote
              let eb1 := eb.SetParentID parent.ID
              let eb2 := eb1.SetVersioningData
                { Tag := opt.Tag, Diverged := opt.Diverges, Timestamp := env.Now }
              let em2 : EmoteMutation := { em with EmoteBuilder := some eb2 }
              -- Write the changes to DB
              match FindOneAndUpdate flt inst targetEmote.ID eb2.Update with
              | (none, inst1) => ⟨.err .ErrInternalError, em2, inst1⟩
              | (some doc, inst1) =>
                let decoded := eb2.Emote.map (fun e => e.Decode targetEmote.ID doc)
                let em3 : EmoteMutation :=
                  { em with EmoteBuilder := some { eb2 with Emote := decoded } }
                -- If version is not diverged, the current version should change
                match decoded.bind (fun e => e.Versioning) with
                | none => ⟨.panic, em3, inst1⟩
                | some v =>
                  if !v.Diverged then
                    match SetCurrentVersion flt inst1 em3 parentEmote with
                    | ⟨.ok _, em4, inst2⟩ =>
                      ⟨.ok (),
                        { em4 with
                          EmoteBuilder := em4.EmoteBuilder.map fun b =>
                            { b with
                              Emote := b.Emote.map fun e =>
                                { e with ParentID := none, Versioning := none } } },
                        inst2⟩
                    | ⟨.err e, em4, inst2⟩ => ⟨.err e, em4, inst2⟩
                    | ⟨.panic, em4, inst2⟩ => ⟨.panic, em4, inst2⟩
                  else ⟨.ok (), em3, inst1⟩

/-- The target emote of a mutation, as the caller sees it in memory. -/
def EmoteMutation.target (em : EmoteMutation) : Option Emote :=
  em.EmoteBuilder.bind (fun eb => eb.Emote)

end Mutations

/-! ### The rights rule of the specification, and the data of the examples -/

namespace Mutations

/-- The rights rule in the words of the specification (section 4.3, step 2):
"an asset with no owner requires capability `EditAnyEmote`; an asset with an
owner requires the actor to be the owner or to appear in the editor list of
the owner with the `ManageOwnedEmotes` permission, or else requires
`EditAnyEmote`". `owner` is the owning user, when there is one. -/
def specRights (env : Env) (a : User) (emote : Emote) (owner : Option User) : Bool :=
  if IsZero emote.OwnerID then env.HasPermission a .EditAnyEmote
  else
    emote.OwnerID == a.ID
    || (match owner with
        | some o =>
          o.Editors.any fun ed => ed.ID == a.ID && env.EditorHasPermission ed .ManageOwnedEmotes
        | none => false)
    || env.HasPermission a .EditAnyEmote

namespace Example

/-- Role 1 grants `EditEmote`, role 2 grants `EditAnyEmote`; an editor entry
holds `ManageOwnedEmotes` when bit 0 of its permissions is set; the driver
refuses to decode into a nil pointer. -/
def env : Env where
  HasPermission := fun u p =>
    match p with
    | .EditEmote => u.RoleIDs.contains 1
    | .EditAnyEmote => u.RoleIDs.contains 2
    | _ => false
  HasPermissionNil := fun _ => none
  EditorHasPermission := fun ed _ => ed.Permissions % 2 == 1
  DecodeToNil := some .Driver
  Now := 7

/-- The same surroundings with a driver that reports success when handed a
nil destination. -/
def envLenient : Env := { env with DecodeToNil := none }

/-- A driver that never fails. -/
def noFaults : Faults := ⟨fun _ => false, false, false, false⟩

/-- The driver as the program meets it: every call answers, except that
`UpdateMany` refuses the update document of `SetCurrentVersion`. -/
def refusedUpdate : Faults := ⟨fun _ => false, false, true, false⟩

/-- A driver whose `UpdateOne` fails. -/
def updateOneFails : Faults := ⟨fun _ => false, false, false, true⟩

/-- User 10 may edit emotes. -/
def alice : User := ⟨10, [1], []⟩

/-- User 20 may edit emotes and lists user 10 as an editor with
`ManageOwnedEmotes`. -/
def bob : User := ⟨20, [1], [⟨10, 1⟩]⟩

/-- User 30 has no role. -/
def carol : User := ⟨30, [], []⟩

/-- User 40 may edit any emote. -/
def dave : User := ⟨40, [1, 2], []⟩

/-- The users collection. -/
def users : ObjectID → Option User := fun i =>
  if i = 10 then some alice
  else if i = 20 then some bob
  else if i = 30 then some carol
  else if i = 40 then some dave
  else none

/-- The emotes collection: 1 and 2 are current versions owned by user 10, 3 is
a version of 1, 4 is a current version owned by user 20. -/
def emotes : ObjectID → Option EmoteDoc := fun i =>
  if i = 1 then some ⟨10, .Live, none, none⟩
  else if i = 2 then some ⟨10, .Live, none, none⟩
  else if i = 3 then some ⟨10, .Live, some 1, none⟩
  else if i = 4 then some ⟨20, .Live, none, none⟩
  else none

/-- The database before the call, with no write issued. -/
def inst : Mongo := ⟨⟨users, emotes⟩, []⟩

/-- Emote 1 in memory. -/
def emote1 : Emote := ⟨1, 10, .Live, none, none, none⟩

/-- Emote 2 in memory. -/
def emote2 : Emote := ⟨2, 10, .Live, none, none, none⟩

/-- Emote 4 in memory, its owner not loaded. -/
def emote4 : Emote := ⟨4, 20, .Live, none, none, none⟩

/-- Emote 4 in memory, its owner loaded. -/
def emote4Loaded : Emote := { emote4 with Owner := some bob }

/-- A mutation of emote `e` by `actor`, nothing staged. -/
def mutation (e : Emote) (actor : Option User) : EmoteMutation :=
  ⟨some ⟨some e, []⟩, actor⟩

/-- An emotes collection in which 5 is a version of 6 and 6 is a version of 7. -/
def chain : ObjectID → Option EmoteDoc := fun i =>
  if i = 5 then some ⟨10, .Live, some 6, none⟩
  else if i = 6 then some ⟨10, .Live, some 7, none⟩
  else if i = 7 then some ⟨10, .Live, none, none⟩
  else none

end Example

end Mutations

/-! ### The version graph -/

namespace Mutations

/-- The update document `ToVersion` sends: what the builder had staged, then
`parent_id` and `version`. -/
def stagedUpdate (env : Env) (eb : EmoteBuilder) (parent : Emote)
    (opt : CreateVersionOptions) : UpdateMap :=
  (eb.Update.Set (.parent_id parent.ID)).Set (.version ⟨opt.Tag, opt.Diverges, env.Now⟩)

/-- The relation `parent_id`: the stored emote `a` names `b` as its parent. -/
def parentEdge (emotes : ObjectID → Option EmoteDoc) (a b : ObjectID) : Prop :=
  ∃ d, emotes a = some d ∧ d.parent_id = some b

/-- No emote is its own parent, directly or transitively. -/
def Acyclic (emotes : ObjectID → Option EmoteDoc) : Prop :=
  ∀ a, ¬ Relation.TransGen (parentEdge emotes) a a

/-- The driver cuts a promotion between its two writes: `UpdateMany` goes
through and `UpdateOne` fails. -/
def Faults.cutsPromotion (flt : Faults) : Bool := !flt.UpdateMany && flt.UpdateOne

/-- A call of `SetCurrentVersion`: the driver it meets, the receiver and the
emote passed as the new current version. -/
abbrev Promotion := Faults × EmoteMutation × Option Emote

/-- The database after a sequence of calls of `SetCurrentVersion`. -/
def promotions (inst : Mongo) (steps : List Promotion) : Mongo :=
  steps.foldl (fun inst s => (SetCurrentVersion s.1 inst s.2.1 s.2.2).inst) inst

end Mutations

/-! ## `structures/v3/mutations/message.mod_request.go` and
`structures/v3/query/query.messages.go` -/

namespace V3

/-- Modelled from the spec: the kinds of object a moderation request may
target ("assets, asset-collections, reports", section 4.5), and any other
kind. The constants `structures.ObjectKind...` are declared outside the sources
at hand. -/
inductive ObjectKind where
  | Emote
  | EmoteSet
  | Report
  | Other (code : Nat)
  deriving DecidableEq, Repr

/-- The kinds of message: `MessageKindModRequest` and any other. -/
inductive MessageKind where
  | ModRequest
  | Other (code : Nat)
  deriving DecidableEq, Repr

/-- The kinds of entitlement: `EntitlementKindRole` and any other. -/
inductive EntitlementKind where
  | Role
  | Other (code : Nat)
  deriving DecidableEq, Repr

/-- Go `structures.User` of v3, as far as the query binds it. -/
structure User where
  ID : ObjectID
  RoleIDs : List ObjectID
  deriving DecidableEq, Repr

/-- Go `structures.Entitlement`, the fields the pipeline reads. -/
structure Entitlement where
  ID : ObjectID
  Kind : EntitlementKind
  UserID : ObjectID
  deriving DecidableEq, Repr

/-- Go `structures.MessageDataModRequest`. -/
structure MessageDataModRequest where
  TargetKind : ObjectKind
  TargetID : ObjectID
  deriving DecidableEq, Repr

/-- Go `structures.Message`. `Author` is relational: it is bound by the query
and is not part of the stored document. -/
structure Message where
  ID : ObjectID
  Kind : MessageKind
  AuthorID : ObjectID
  Data : MessageDataModRequest
  Author : Option User
  deriving DecidableEq, Repr

/-- Go `structures.MessageRead`, a read-state. -/
structure MessageRead where
  ID : ObjectID
  MessageID : ObjectID
  Kind : MessageKind
  Timestamp : Nat
  Read : Bool
  deriving DecidableEq, Repr

/-- Go `structures.MessageBuilder`. -/
structure MessageBuilder where
  Message : Message
  tainted : Bool
  deriving DecidableEq, Repr

/-- Modelled from the spec: `MessageBuilder.IsTainted` is declared outside the
sources at hand; "a builder that has already been applied to storage is marked
tainted" (section 4.2). -/
def MessageBuilder.IsTainted (mb : MessageBuilder) : Bool := mb.tainted

/-- Modelled from the spec: `MessageBuilder.MarkAsTainted` is declared outside
the sources at hand (section 4.2, section 4.4 step 4). -/
def MessageBuilder.MarkAsTainted (mb : MessageBuilder) : MessageBuilder :=
  { mb with tainted := true }

/-- The errors of package `errors` that the two functions return, and the
error of the driver handed through as it is. -/
inductive APIError where
  | ErrInternalIncompleteMutation
  | ErrMutateTaintedObject
  | ErrInvalidRequest (detail : String)
  | ErrInternalServerError (detail : String)
  | ErrNoItems (detail : String)
  | Driver (message : String)
  deriving DecidableEq, Repr

/-- A document of a collection other than messages and read-states, as the
existence filter sees it: its `_id` and the ids of its `versions`. -/
structure ObjectDoc where
  id : ObjectID
  versions : List ObjectID
  deriving DecidableEq, Repr

/-- The database of v3: messages, read-states, users and entitlements in
insertion order, and the other collections by name. -/
structure Store where
  messages : List Message
  messages_read : List MessageRead
  users : List User
  entitlements : List Entitlement
  objects : String → List ObjectDoc

/-- Modelled from the spec: the names of the collections (`mongo.CollectionName...`
are declared outside the sources at hand). -/
def CollectionNameMessages : String := "messages"

/-- Modelled from the spec: the name of the read-states collection. -/
def CollectionNameMessagesRead : String := "messages_read"

/-- Modelled from the spec: the name of the users collection. -/
def CollectionNameUsers : String := "users"

/-- Modelled from the spec: the name of the entitlements collection. -/
def CollectionNameEntitlements : String := "entitlements"

/-- The documents of the collection `coll`, as the existence filter sees
them. -/
def Store.docs (db : Store) (coll : String) : List ObjectDoc :=
  if coll = CollectionNameMessages then db.messages.map fun m => ⟨m.ID, []⟩
  else if coll = CollectionNameMessagesRead then db.messages_read.map fun r => ⟨r.ID, []⟩
  else if coll = CollectionNameUsers then db.users.map fun u => ⟨u.ID, []⟩
  else if coll = CollectionNameEntitlements then db.entitlements.map fun e => ⟨e.ID, []⟩
  else db.objects coll

/-- The two filters `SendModRequestMessage` builds. -/
inductive Filter where
  | byID (id : ObjectID)
  | byVersionID (id : ObjectID)
  deriving DecidableEq, Repr

/-- Whether a document satisfies `{"_id": id}`, respectively
`{"versions.id": id}`. -/
def Filter.matches : Filter → ObjectDoc → Bool
  | .byID id, d => d.id == id
  | .byVersionID id, d => d.versions.contains id

/-- What the code takes from its surroundings.

* `CollectionName` is `ObjectKind.CollectionName()`.
* `InsertedID` is the `_id` under which the driver stores a message.
* `ReadStateID` is the `_id` under which it stores the read-state.
* `mapUsers` is `QueryBinder.mapUsers`, with the lookup in the map it returns.
* `Now` is `time.Now()`. -/
structure Env where
  CollectionName : ObjectKind → String
  InsertedID : Message → ObjectID
  ReadStateID : ObjectID
  mapUsers : List User → List Entitlement → ObjectID → Option User
  Now : Nat

/-- Failures of the driver, one flag for each call the code issues;
`FindOne` stands for a failure other than `ErrNoDocuments`, `Decode` for a
failure other than `io.EOF`. -/
structure Faults where
  FindOne : Bool
  InsertMessage : Bool
  InsertRead : Bool
  Aggregate : Bool
  Decode : Bool

/-- What a call of `SendModRequestMessage` leaves behind: the error returned
(`none` is nil), the builder and the database. -/
structure SendRet where
  err : Option APIError
  mb : Option MessageBuilder
  db : Store

/-- The existence filter for a request: by version id for an emote, by `_id`
for every other kind. -/
def targetFilter (req : MessageDataModRequest) : Filter :=
  match req.TargetKind with
  | .Emote => .byVersionID req.TargetID
  | _ => .byID req.TargetID

/-- Go `func (m *Mutate) SendModRequestMessage(ctx, mb)`. -/
def SendModRequestMessage (env : Env) (flt : Faults) (db : Store)
    (mb : Option MessageBuilder) : SendRet :=
  match mb with
  | none => ⟨some .ErrInternalIncompleteMutation, mb, db⟩
  | some b =>
    if b.IsTainted then ⟨some .ErrMutateTaintedObject, mb, db⟩
    else
      -- Get the message
      let req := b.Message.Data
      -- Verify that the target item exists
      let filter := targetFilter req
      let coll := env.CollectionName req.TargetKind
      if flt.FindOne then ⟨some (.ErrInternalServerError "driver"), mb, db⟩
      else
        match (db.docs coll).find? filter.matches with
        | none => ⟨some (.ErrInvalidRequest "Target item doesn\x27t exist"), mb, db⟩
        | some _ =>
          -- Create the message
          if flt.InsertMessage then ⟨some (.Driver "driver"), mb, db⟩
          else
            let msgID := env.InsertedID b.Message
            let db1 : Store :=
              { db with
                messages := db.messages ++ [{ b.Message with ID := msgID, Author := none }] }
            let b1 : MessageBuilder := { b with Message := { b.Message with ID := msgID } }
            -- Create a read state
            let rs : MessageRead :=
              { ID := env.ReadStateID, MessageID := msgID, Kind := .ModRequest,
                Timestamp := env.Now, Read := false }
            if flt.InsertRead then ⟨some (.Driver "driver"), some b1.MarkAsTainted, db1⟩
            else
              ⟨none, some b1.MarkAsTainted,
                { db1 with messages_read := db1.messages_read ++ [rs] }⟩

/-- Go `query.messageQueryOptions`. `SubFilter` and `SubPipeline` have no
effect on the pipeline `messages` runs and are left out; `Limit` is never
negative (`ModRequestMessages` passes 100). -/
structure messageQueryOptions where
  Actor : Option User
  Limit : Nat

/-- The stages `$sort` (by `_id`, descending), `$match` on the filter and
`$limit` (when `Limit` is not 0): the messages examined. -/
def candidates (db : Store) (filter : Message → Bool) (opt : messageQueryOptions) :
    List Message :=
  let sorted := db.messages.insertionSort (fun a b => b.ID ≤ a.ID)
  let matched := sorted.filter filter
  if opt.Limit != 0 then matched.take opt.Limit else matched

/-- The stage `$lookup` from the read-states: those whose `message_id` is the
`_id` of the message. -/
def readStates (db : Store) (id : ObjectID) : List MessageRead :=
  db.messages_read.filter fun r => r.MessageID == id

/-- The field `readers` of the stage `$set`: `$size` of the read-states. -/
def readers (db : Store) (id : ObjectID) : Nat := (readStates db id).length

/-- The field `read` of the stage `$set`: the field `read` of the first
read-state whose `read` is true, missing when there is none. -/
def read (db : Store) (id : ObjectID) : Option Bool :=
  (((readStates db id).filter fun rs => rs.Read == true).head?).map fun rs => rs.Read

/-- The second stage `$match`: `readers > 0` and `read` not equal to true. -/
def unreadMatch (db : Store) (m : Message) : Bool :=
  decide (readers db m.ID > 0) && !(read db m.ID == some true)

/-- Go `func (q *Query) messages(ctx, filter, opt)`. The stage `$group`
collects the matches into one document; without a match there is no document
to decode and the outcome is `ErrNoItems`. The authors are the users whose
`_id` is the `author_id` of a match, the entitlements those of kind role
whose `user_id` is an author. -/
def messages (env : Env) (flt : Faults) (db : Store) (filter : Message → Bool)
    (opt : messageQueryOptions) : Except APIError (List Message) :=
  if flt.Aggregate then .error (.ErrInternalServerError "driver")
  else
    let unread := (candidates db filter opt).filter (unreadMatch db)
    match unread with
    | [] => .error (.ErrNoItems "No messages")
    | _ :: _ =>
      if flt.Decode then .error (.ErrInternalServerError "driver")
      else
        let authors := db.users.filter fun u => unread.any fun m => m.AuthorID == u.ID
        let roleEntitlements :=
          (db.entitlements.filter fun e => authors.any fun u => u.ID == e.UserID).filter
            fun e => e.Kind == .Role
        let userMap := env.mapUsers authors roleEntitlements
        .ok (unread.map fun msg => { msg with Author := userMap msg.AuthorID })

/-- The messages a call of `messages` hands to its caller: none when it
returns an error. -/
def returned : Except APIError (List Message) → List Message
  | .ok items => items
  | .error _ => []

namespace Example

/-- Requests for emotes are looked up in `emotes`, the others in `objects`;
a new message is stored under id 100, its read-state under id 200. -/
def env : Env where
  CollectionName := fun k => match k with
    | .Emote => "emotes"
    | _ => "objects"
  InsertedID := fun _ => 100
  ReadStateID := 200
  mapUsers := fun authors _ id => authors.find? fun u => u.ID == id
  Now := 7

/-- A driver that never fails. -/
def noFaults : Faults := ⟨false, false, false, false, false⟩

/-- A driver that fails at every call. -/
def allFaults : Faults := ⟨true, true, true, true, true⟩

/-- A moderation request by user 10 about the object `id` of kind `kind`. -/
def request (msgID : ObjectID) (kind : ObjectKind) (id : ObjectID) : Message :=
  ⟨msgID, .ModRequest, 10, ⟨kind, id⟩, none⟩

/-- The messages M1, M2 and M3. -/
def M1 : Message := request 1 .Emote 51
/-- The message M2. -/
def M2 : Message := request 2 .Emote 52
/-- The message M3. -/
def M3 : Message := request 3 .Emote 53

/-- One emote, 50, whose versions are 50, 51, 52 and 53; M1 has no read-state,
M2 has two and none is read, M3 has one and it is read. -/
def db : Store where
  messages := [M1, M2, M3]
  messages_read :=
    [⟨201, 2, .ModRequest, 1, false⟩, ⟨202, 2, .ModRequest, 2, false⟩,
     ⟨203, 3, .ModRequest, 3, true⟩]
  users := [⟨10, []⟩]
  entitlements := []
  objects := fun coll => if coll = "emotes" then [⟨50, [50, 51, 52, 53]⟩] else []

/-- Every message is a candidate. -/
def anyMessage : Message → Bool := fun _ => true

end Example

end V3

end Common

/-! # Properties -/

namespace Common

/-! ## Ban effects -/

theorem land_eq_right_iff (a e : Nat) :
    a &&& e = e ↔ ∀ i, e.testBit i = true → a.testBit i = true := by
  constructor
  · intro h i hi
    have hb := congrArg (fun x => x.testBit i) h
    simp [Nat.testBit_and, hi] at hb
    exact hb
  · intro h
    apply Nat.eq_of_testBit_eq
    intro i
    rw [Nat.testBit_and]
    cases he : e.testBit i
    · simp
    · simp [h i he]

/-- The operation `&` of `HasEffect` stays within `uint32`. -/
theorem land_lt_uint32 (a e : BanEffect) (ha : a < 2 ^ 32) : a &&& e < 2 ^ 32 := by
  rw [Nat.land_comm]
  exact Nat.and_lt_two_pow e ha

theorem BanEffectMap_eq_two_pow (k : BanEffectKey) : BanEffectMap k = 2 ^ k.bit := by
  cases k <;> rfl

theorem BanEffectKey.bit_injective {k l : BanEffectKey} (h : k.bit = l.bit) : k = l := by
  cases k <;> cases l <;> first | rfl | (exact absurd h (by decide))

theorem testBit_orEffects (keys : List BanEffectKey) (i : Nat) :
    (orEffects keys).testBit i = true ↔ ∃ k ∈ keys, k.bit = i := by
  induction keys with
  | nil => simp [orEffects]
  | cons k ks ih =>
    have hstep : orEffects (k :: ks) = BanEffectMap k ||| orEffects ks := rfl
    rw [hstep, Nat.testBit_or, Bool.or_eq_true, ih, BanEffectMap_eq_two_pow,
      Nat.testBit_two_pow]
    simp

theorem hasEffect_single_iff (b : Ban) (k : BanEffectKey) :
    b.HasEffect (BanEffectMap k) = true ↔ b.Effects.testBit k.bit = true := by
  unfold Ban.HasEffect
  rw [beq_iff_eq, land_eq_right_iff, BanEffectMap_eq_two_pow]
  constructor
  · intro h
    exact h k.bit (by simp [Nat.testBit_two_pow])
  · intro h i hi
    rw [Nat.testBit_two_pow] at hi
    have : k.bit = i := by simpa using hi
    exact this ▸ h

/-- C10. `HasEffect e` holds exactly when every bit of the mask `e` is set in
the `Effects` of the ban (`(Effects & e) == e`); a ban whose `Effects` is the OR
of a set of the five single-bit effects reports exactly the members of that
set; with `Effects = NoAuth | NoOwnership`, `HasEffect NoAuth` is true and
`HasEffect NoPermissions` is false. -/
theorem Ban.HasEffect_composition :
    (∀ (b : Ban) (e : BanEffect),
      b.HasEffect e = true ↔ ∀ i, e.testBit i = true → b.Effects.testBit i = true) ∧
    (∀ (b : Ban) (S : List BanEffectKey) (x : BanEffectKey),
      ({ b with Effects := orEffects S } : Ban).HasEffect (BanEffectMap x) = true ↔ x ∈ S) ∧
    (∀ (b : Ban),
      ({ b with Effects := BanEffectNoAuth ||| BanEffectNoOwnership } : Ban).HasEffect
          BanEffectNoAuth = true ∧
      ({ b with Effects := BanEffectNoAuth ||| BanEffectNoOwnership } : Ban).HasEffect
          BanEffectNoPermissions = false) := by
  refine ⟨?_, ?_, ?_⟩
  · intro b e
    unfold Ban.HasEffect
    rw [beq_iff_eq]
    exact land_eq_right_iff b.Effects e
  · intro b S x
    rw [hasEffect_single_iff]
    show (orEffects S).testBit x.bit = true ↔ x ∈ S
    rw [testBit_orEffects]
    constructor
    · rintro ⟨k, hk, hbit⟩
      exact BanEffectKey.bit_injective hbit ▸ hk
    · intro hx
      exact ⟨x, hx, rfl⟩
  · intro b
    constructor <;> (simp only [Ban.HasEffect]; decide)


/-! ## `ToVersion`: permission gating and the rights check -/

namespace Mutations

open Example

/-- C1, as stated, fails for an absent actor: the general permission check is
skipped when `actor == nil`, and with an owned target the rights check then
reads `actor.ID` through the nil pointer. The call panics; it does not return
`ErrInsufficientPrivilege`. -/
theorem ToVersion_nil_actor_panics :
    (ToVersion env noFaults inst (mutation emote1 none) (some emote2) ⟨"v2", false⟩).result
      = .panic ∧
    (ToVersion env noFaults inst (mutation emote1 none) (some emote2) ⟨"v2", false⟩).result
      ≠ .err .ErrInsufficientPrivilege := by
  constructor
  · rfl
  · decide

/-- C1, amended. For every mutation with a builder and a target emote and every
actor that is present and lacks `EditEmote`, `ToVersion` returns
`ErrInsufficientPrivilege`; the database (documents and issued writes) and the
mutation are as they were. -/
theorem ToVersion_requires_EditEmote (env : Env) (flt : Faults) (inst : Mongo)
    (em : EmoteMutation) (parentEmote : Option Emote) (opt : CreateVersionOptions)
    (eb : EmoteBuilder) (t : Emote) (a : User)
    (hb : em.EmoteBuilder = some eb) (ht : eb.Emote = some t) (ha : em.Actor = some a)
    (hp : env.HasPermission a .EditEmote = false) :
    (ToVersion env flt inst em parentEmote opt).result = .err .ErrInsufficientPrivilege ∧
    (ToVersion env flt inst em parentEmote opt).inst = inst ∧
    (ToVersion env flt inst em parentEmote opt).em = em := by
  unfold ToVersion
  simp [hb, ht, ha, hp]

/-- Witness of `ToVersion_requires_EditEmote`: user 30, who has no role, on
emote 1. -/
theorem ToVersion_requires_EditEmote_witness :
    (ToVersion env noFaults inst (mutation emote1 (some carol)) (some emote2) ⟨"v2", false⟩).result
      = .err .ErrInsufficientPrivilege ∧
    (ToVersion env noFaults inst (mutation emote1 (some carol)) (some emote2) ⟨"v2", false⟩).inst
      = inst ∧
    (ToVersion env noFaults inst (mutation emote1 (some carol)) (some emote2) ⟨"v2", false⟩).em
      = mutation emote1 (some carol) :=
  ToVersion_requires_EditEmote env noFaults inst (mutation emote1 (some carol)) (some emote2)
    ⟨"v2", false⟩ ⟨some emote1, []⟩ emote1 carol rfl rfl rfl rfl

/-- C2 fails on the code. User 10 holds `EditEmote` and is listed by user 20
as an editor with `ManageOwnedEmotes`, so the rule of the specification allows
user 10 on emote 4, owned by user 20; with the owner of emote 4 loaded the
check of the code denies, and `ToVersion` returns `ErrInsufficientPrivilege`
without a write, on the target and on the parent alike. User 40, who holds
`EditAnyEmote`, is denied in the same way. With the owner not loaded and found
in the users collection the check ends in the error of the driver or in a
panic, never in success. -/
theorem checkEmoteRights_denies_permitted_editor :
    specRights env alice emote4Loaded (some bob) = true ∧
    checkEmoteRights env noFaults inst (some alice) (some emote4Loaded)
      = .err .ErrInsufficientPrivilege ∧
    (ToVersion env noFaults inst (mutation emote4Loaded (some alice)) (some emote1)
      ⟨"v2", true⟩).result = .err .ErrInsufficientPrivilege ∧
    (ToVersion env noFaults inst (mutation emote4Loaded (some alice)) (some emote1)
      ⟨"v2", true⟩).inst.writes = [] ∧
    (ToVersion env noFaults inst (mutation emote1 (some alice)) (some emote4Loaded)
      ⟨"v2", true⟩).result = .err .ErrInsufficientPrivilege ∧
    specRights env dave emote4Loaded (some bob) = true ∧
    checkEmoteRights env noFaults inst (some dave) (some emote4Loaded)
      = .err .ErrInsufficientPrivilege ∧
    checkEmoteRights env noFaults inst (some alice) (some emote4) = .err .Driver ∧
    checkEmoteRights envLenient noFaults inst (some alice) (some emote4) = .panic := by
  refine ⟨?_, ?_, ?_, ?_, ?_, ?_, ?_, ?_, ?_⟩ <;> rfl

end Mutations


/-! ## `ToVersion`: what reaches storage -/

namespace Mutations

open Example

/-- C3 fails on the code. User 10 owns emotes 1 and 2 and makes 1 a
non-diverging version of 2. The target is stored as a version of 2; the
promotion that follows is refused by the driver at `UpdateMany`, `UpdateOne`
is never issued, and `ToVersion` returns the error of the driver. The target
is not the current version, neither in storage (`parent_id = 2` and the
versioning record) nor in memory (`ParentID = 2` and `Versioning`), and emote
3 is still a version of 1. -/
theorem ToVersion_target_stays_version :
    (ToVersion env refusedUpdate inst (mutation emote1 (some alice)) (some emote2)
      ⟨"v2", false⟩).result = .err .Driver ∧
    (ToVersion env refusedUpdate inst (mutation emote1 (some alice)) (some emote2)
      ⟨"v2", false⟩).em.target
      = some ⟨1, 10, .Live, some 2, some ⟨"v2", false, 7⟩, none⟩ ∧
    (ToVersion env refusedUpdate inst (mutation emote1 (some alice)) (some emote2)
      ⟨"v2", false⟩).inst.store.emotes 1 = some ⟨10, .Live, some 2, some ⟨"v2", false, 7⟩⟩ ∧
    (ToVersion env refusedUpdate inst (mutation emote1 (some alice)) (some emote2)
      ⟨"v2", false⟩).inst.store.emotes 2 = some ⟨10, .Live, none, none⟩ ∧
    (ToVersion env refusedUpdate inst (mutation emote1 (some alice)) (some emote2)
      ⟨"v2", false⟩).inst.store.emotes 3 = some ⟨10, .Live, some 1, none⟩ ∧
    (ToVersion env refusedUpdate inst (mutation emote1 (some alice)) (some emote2)
      ⟨"v2", false⟩).inst.writes
      = [.FindOneAndUpdate 1, .UpdateMany 1 2] := by
  refine ⟨?_, ?_, ?_, ?_, ?_, ?_⟩ <;> rfl

theorem UpdateMap_apply_staged (u : UpdateMap) (d : EmoteDoc) (p : ObjectID)
    (v : EmoteVersioning) :
    (((u.Set (.parent_id p)).Set (.version v)).apply d).parent_id = some p ∧
    (((u.Set (.parent_id p)).Set (.version v)).apply d).version = some v := by
  simp [UpdateMap.Set, UpdateMap.apply, List.foldl_append, UpdateField.apply]

/-- A successful diverging call found the target in storage, issued the one
write `FindOneAndUpdate` and decoded the stored document into the target. -/
theorem ToVersion_diverging_ok (env : Env) (flt : Faults) (inst : Mongo)
    (em : EmoteMutation) (parent : Emote) (opt : CreateVersionOptions)
    (eb : EmoteBuilder) (t : Emote)
    (hb : em.EmoteBuilder = some eb) (ht : eb.Emote = some t)
    (hd : opt.Diverges = true)
    (hok : (ToVersion env flt inst em (some parent) opt).result = .ok ()) :
    ∃ d, inst.store.emotes t.ID = some d ∧
      (ToVersion env flt inst em (some parent) opt).inst =
          (inst.issue (.FindOneAndUpdate t.ID)).withEmotes (fun i =>
            if i = t.ID then some ((stagedUpdate env eb parent opt).apply d)
            else inst.store.emotes i) ∧
      (ToVersion env flt inst em (some parent) opt).em.target =
          some (Emote.Decode
            ({ t with ParentID := some parent.ID, Versioning := some ⟨opt.Tag, opt.Diverges, env.Now⟩ })
            t.ID ((stagedUpdate env eb parent opt).apply d)) := by
  unfold ToVersion at hok ⊢
  simp only [hb, ht] at hok ⊢
  by_cases hperm : (match em.Actor with
      | some a => !env.HasPermission a .EditEmote
      | none => false) = true
  · simp [hperm] at hok
  · simp only [hperm, if_false] at hok ⊢
    cases h1 : checkEmoteRights env flt inst em.Actor (some t) with
    | err e => simp [h1] at hok
    | panic => simp [h1] at hok
    | ok u1 =>
      simp only [h1] at hok ⊢
      cases h2 : checkEmoteRights env flt inst em.Actor (some parent) with
      | err e => simp [h2] at hok
      | panic => simp [h2] at hok
      | ok u2 =>
        simp only [h2] at hok ⊢
        unfold FindOneAndUpdate at hok ⊢
        by_cases hf : flt.FindOneAndUpdate = true
        · simp [hf] at hok
        · simp only [hf, if_false] at hok ⊢
          cases hdoc : inst.store.emotes t.ID with
          | none => simp [hdoc] at hok
          | some d =>
            refine ⟨d, rfl, ?_⟩
            have hv := (UpdateMap_apply_staged eb.Update d parent.ID
              ⟨opt.Tag, true, env.Now⟩).2
            simp [EmoteBuilder.SetVersioningData, EmoteBuilder.SetParentID, ht,
              Emote.Decode, hv, hd, stagedUpdate, EmoteMutation.target]

/-- C6, as stated, fails when the parent passed is the target itself: user 10
makes emote 1 a diverging version of emote 1. The call succeeds, and the stored
document of the parent, a current version before the call, now has
`parent_id = 1` and a versioning record. -/
theorem ToVersion_diverging_onto_itself :
    (ToVersion env noFaults inst (mutation emote1 (some alice)) (some emote1)
      ⟨"v2", true⟩).result = .ok () ∧
    inst.store.emotes emote1.ID = some ⟨10, .Live, none, none⟩ ∧
    (ToVersion env noFaults inst (mutation emote1 (some alice)) (some emote1)
      ⟨"v2", true⟩).inst.store.emotes emote1.ID
      = some ⟨10, .Live, some 1, some ⟨"v2", true, 7⟩⟩ ∧
    (ToVersion env noFaults inst (mutation emote1 (some alice)) (some emote1)
      ⟨"v2", true⟩).inst.store.emotes emote1.ID ≠ inst.store.emotes emote1.ID := by
  refine ⟨?_, ?_, ?_, ?_⟩
  · rfl
  · rfl
  · rfl
  · decide

/-- C6, amended. For every successful call of `ToVersion` with `Diverges = true`
whose parent is another emote than the target: every stored emote other than
the target is as before, the parent among them, and so are the users; the
stored target has `parent_id = parent.ID` and the versioning record of the
call; the one write issued is the `FindOneAndUpdate` of the target, so
`SetCurrentVersion` did not run; the target in memory has
`ParentID = parent.ID` and `Versioning.Diverged = true`. -/
theorem ToVersion_diverging_isolated (env : Env) (flt : Faults) (inst : Mongo)
    (em : EmoteMutation) (parent : Emote) (opt : CreateVersionOptions) (t : Emote)
    (htgt : em.target = some t) (hd : opt.Diverges = true)
    (hok : (ToVersion env flt inst em (some parent) opt).result = .ok ())
    (hne : parent.ID ≠ t.ID) :
    (∀ i, i ≠ t.ID →
      (ToVersion env flt inst em (some parent) opt).inst.store.emotes i
        = inst.store.emotes i) ∧
    (ToVersion env flt inst em (some parent) opt).inst.store.emotes parent.ID
      = inst.store.emotes parent.ID ∧
    (ToVersion env flt inst em (some parent) opt).inst.store.users = inst.store.users ∧
    (∃ d, (ToVersion env flt inst em (some parent) opt).inst.store.emotes t.ID = some d ∧
      d.parent_id = some parent.ID ∧ d.version = some ⟨opt.Tag, true, env.Now⟩) ∧
    (ToVersion env flt inst em (some parent) opt).inst.writes
      = inst.writes ++ [.FindOneAndUpdate t.ID] ∧
    (∃ e v, (ToVersion env flt inst em (some parent) opt).em.target = some e ∧
      e.ParentID = some parent.ID ∧ e.Versioning = some v ∧ v.Diverged = true) := by
  obtain ⟨eb, hb, ht⟩ : ∃ eb, em.EmoteBuilder = some eb ∧ eb.Emote = some t := by
    unfold EmoteMutation.target at htgt
    cases hb : em.EmoteBuilder with
    | none => simp [hb] at htgt
    | some eb => exact ⟨eb, rfl, by simpa [hb] using htgt⟩
  obtain ⟨d, _, hinst, hem⟩ := ToVersion_diverging_ok env flt inst em parent opt eb t hb ht hd hok
  have hstaged := UpdateMap_apply_staged eb.Update d parent.ID ⟨opt.Tag, true, env.Now⟩
  rw [hinst, hem]
  refine ⟨?_, ?_, ?_, ?_, ?_, ?_⟩
  · intro i hi
    simp [Mongo.withEmotes, Mongo.issue, hi]
  · simp [Mongo.withEmotes, Mongo.issue, hne]
  · simp [Mongo.withEmotes, Mongo.issue]
  · refine ⟨(stagedUpdate env eb parent opt).apply d, ?_, ?_, ?_⟩
    · simp [Mongo.withEmotes, Mongo.issue]
    · simpa [stagedUpdate, hd] using hstaged.1
    · simpa [stagedUpdate, hd] using hstaged.2
  · simp [Mongo.withEmotes, Mongo.issue]
  · refine ⟨_, ⟨opt.Tag, true, env.Now⟩, rfl, ?_, ?_, rfl⟩
    · have h1 := hstaged.1
      simp only [stagedUpdate, hd, Emote.Decode, h1]
    · have h2 := hstaged.2
      simp only [stagedUpdate, hd, Emote.Decode, h2]

/-- Witness of `ToVersion_diverging_isolated`: user 10 makes emote 1 a
diverging version of emote 2. -/
theorem ToVersion_diverging_isolated_witness :
    (∀ i, i ≠ emote1.ID →
      (ToVersion env noFaults inst (mutation emote1 (some alice)) (some emote2)
        ⟨"v2", true⟩).inst.store.emotes i = inst.store.emotes i) ∧
    (ToVersion env noFaults inst (mutation emote1 (some alice)) (some emote2)
      ⟨"v2", true⟩).inst.store.emotes emote2.ID = inst.store.emotes emote2.ID ∧
    (ToVersion env noFaults inst (mutation emote1 (some alice)) (some emote2)
      ⟨"v2", true⟩).inst.store.users = inst.store.users ∧
    (∃ d, (ToVersion env noFaults inst (mutation emote1 (some alice)) (some emote2)
        ⟨"v2", true⟩).inst.store.emotes emote1.ID = some d ∧
      d.parent_id = some emote2.ID ∧ d.version = some ⟨"v2", true, env.Now⟩) ∧
    (ToVersion env noFaults inst (mutation emote1 (some alice)) (some emote2)
      ⟨"v2", true⟩).inst.writes = inst.writes ++ [.FindOneAndUpdate emote1.ID] ∧
    (∃ e v, (ToVersion env noFaults inst (mutation emote1 (some alice)) (some emote2)
        ⟨"v2", true⟩).em.target = some e ∧
      e.ParentID = some emote2.ID ∧ e.Versioning = some v ∧ v.Diverged = true) :=
  ToVersion_diverging_isolated env noFaults inst (mutation emote1 (some alice)) emote2
    ⟨"v2", true⟩ emote1 rfl rfl rfl (by decide)

end Mutations


/-! ## `SetCurrentVersion`: the version graph under promotion -/

namespace Mutations

open Example

theorem UpdateMany_idem (emotes : ObjectID → Option EmoteDoc) (c n : ObjectID) :
    UpdateMany (UpdateMany emotes c n) c n = UpdateMany emotes c n := by
  funext i
  unfold UpdateMany
  cases hd : emotes i with
  | none => rfl
  | some d =>
    simp only [Option.map_some']
    by_cases hcond : (i != n && d.parent_id == some c && d.status == EmoteStatusLive) = true
    · simp only [hcond, if_true]
      by_cases hcond2 : (i != n && (some n : Option ObjectID) == some c
          && d.status == EmoteStatusLive) = true
      · simp [hcond2]
      · simp [hcond2]
    · simp [hcond]

theorem UpdateOne_idem (emotes : ObjectID → Option EmoteDoc) (n : ObjectID) :
    UpdateOne (UpdateOne emotes n) n = UpdateOne emotes n := by
  funext i
  unfold UpdateOne
  by_cases hi : i = n
  · simp only [hi, if_true]
    cases emotes n <;> rfl
  · simp [hi]

theorem UpdateMany_UpdateOne_UpdateMany (emotes : ObjectID → Option EmoteDoc)
    (c n : ObjectID) :
    UpdateMany (UpdateOne (UpdateMany emotes c n) n) c n
      = UpdateOne (UpdateMany emotes c n) n := by
  funext i
  by_cases hi : i = n
  · subst hi
    unfold UpdateMany UpdateOne
    cases h : emotes i <;> simp [h]
  · have h1 : ∀ e : ObjectID → Option EmoteDoc, UpdateOne e n i = e i := by
      intro e
      simp [UpdateOne, hi]
    have h2 : UpdateMany (UpdateOne (UpdateMany emotes c n) n) c n i
        = UpdateMany (UpdateMany emotes c n) c n i := by
      unfold UpdateMany
      rw [h1]
    rw [h2, h1, UpdateMany_idem]

/-- The store a call of `SetCurrentVersion` leaves behind. -/
theorem SetCurrentVersion_store (flt : Faults) (inst : Mongo) (em : EmoteMutation)
    (emote : Option Emote) :
    (SetCurrentVersion flt inst em emote).inst.store =
      match em.target, emote with
      | some cur, some e =>
        if flt.UpdateMany then inst.store
        else if flt.UpdateOne then
          { inst.store with emotes := UpdateMany inst.store.emotes cur.ID e.ID }
        else
          { inst.store with
            emotes := UpdateOne (UpdateMany inst.store.emotes cur.ID e.ID) e.ID }
      | _, _ => inst.store := by
  unfold SetCurrentVersion EmoteMutation.target
  cases em.EmoteBuilder.bind (fun eb => eb.Emote) with
  | none => rfl
  | some cur =>
    cases emote with
    | none => rfl
    | some e =>
      by_cases hm : flt.UpdateMany = true
      · simp [hm, Mongo.issue]
      · by_cases ho : flt.UpdateOne = true
        · simp [hm, ho, Mongo.issue, Mongo.withEmotes]
        · simp [hm, ho, Mongo.issue, Mongo.withEmotes]

/-- A call of `SetCurrentVersion` that returns without error met no failure
of the driver. -/
theorem SetCurrentVersion_ok (flt : Faults) (inst : Mongo) (em : EmoteMutation)
    (emote : Option Emote) (h : (SetCurrentVersion flt inst em emote).result = .ok ()) :
    flt.UpdateMany = false ∧ flt.UpdateOne = false := by
  unfold SetCurrentVersion at h
  cases hc : em.EmoteBuilder.bind (fun eb => eb.Emote) with
  | none => simp [hc] at h
  | some cur =>
    cases emote with
    | none => simp [hc] at h
    | some e =>
      by_cases hm : flt.UpdateMany = true
      · simp [hc, hm] at h
      · by_cases ho : flt.UpdateOne = true
        · simp [hc, hm, ho] at h
        · simp [hm, ho]

/-- The receiver is not changed by `SetCurrentVersion`. -/
theorem SetCurrentVersion_em (flt : Faults) (inst : Mongo) (em : EmoteMutation)
    (emote : Option Emote) : (SetCurrentVersion flt inst em emote).em = em := by
  unfold SetCurrentVersion
  cases em.EmoteBuilder.bind (fun eb => eb.Emote) with
  | none => rfl
  | some cur =>
    cases emote with
    | none => rfl
    | some e =>
      by_cases hm : flt.UpdateMany = true
      · simp [hm]
      · by_cases ho : flt.UpdateOne = true
        · simp [hm, ho]
        · simp [hm, ho]

/-- C5. For every store and every pair (emote of the mutation, emote passed as
the new current version), a second call of `SetCurrentVersion` with the same
pair leaves every stored document as the first call left it. This holds when
the second call meets the same driver as the first, and, whatever the driver
of the second call does, when the first call returned without error. -/
theorem SetCurrentVersion_idempotent (flt flt2 : Faults) (inst : Mongo)
    (em : EmoteMutation) (emote : Option Emote)
    (h : flt2 = flt ∨ (SetCurrentVersion flt inst em emote).result = .ok ()) :
    (SetCurrentVersion flt2 (SetCurrentVersion flt inst em emote).inst
        (SetCurrentVersion flt inst em emote).em emote).inst.store
      = (SetCurrentVersion flt inst em emote).inst.store := by
  rw [SetCurrentVersion_em, SetCurrentVersion_store flt2, SetCurrentVersion_store flt]
  cases hc : em.target with
  | none => rfl
  | some cur =>
    cases emote with
    | none => rfl
    | some e =>
      simp only
      rcases h with h | h
      · subst h
        by_cases hm : flt2.UpdateMany = true
        · simp [hm]
        · by_cases ho : flt2.UpdateOne = true
          · simp [hm, ho, UpdateMany_idem]
          · simp [hm, ho, UpdateMany_UpdateOne_UpdateMany, UpdateOne_idem]
      · obtain ⟨hm, ho⟩ := SetCurrentVersion_ok flt inst em (some e) h
        by_cases hm2 : flt2.UpdateMany = true
        · simp [hm, ho, hm2]
        · by_cases ho2 : flt2.UpdateOne = true
          · simp [hm, ho, hm2, ho2, UpdateMany_UpdateOne_UpdateMany]
          · simp [hm, ho, hm2, ho2, UpdateMany_UpdateOne_UpdateMany, UpdateOne_idem]

/-- Witness of `SetCurrentVersion_idempotent`: emote 2 is promoted over emote
1, twice, the driver failing at `UpdateOne` the second time. -/
theorem SetCurrentVersion_idempotent_witness :
    (updateOneFails = noFaults ∨
      (SetCurrentVersion noFaults inst (mutation emote1 (some alice)) (some emote2)).result
        = .ok ()) ∧
    (SetCurrentVersion updateOneFails
        (SetCurrentVersion noFaults inst (mutation emote1 (some alice)) (some emote2)).inst
        (SetCurrentVersion noFaults inst (mutation emote1 (some alice)) (some emote2)).em
        (some emote2)).inst.store
      = (SetCurrentVersion noFaults inst (mutation emote1 (some alice)) (some emote2)).inst.store :=
  ⟨Or.inr rfl,
    SetCurrentVersion_idempotent noFaults updateOneFails inst (mutation emote1 (some alice))
      (some emote2) (Or.inr rfl)⟩

end Mutations


namespace Mutations

open Example

/-- After a complete promotion the new current version has no parent. -/
theorem no_edge_from_new_current (emotes : ObjectID → Option EmoteDoc) (c n b : ObjectID) :
    ¬ parentEdge (UpdateOne (UpdateMany emotes c n) n) n b := by
  rintro ⟨d, hd, hp⟩
  simp only [UpdateOne, if_true] at hd
  cases h : UpdateMany emotes c n n with
  | none => simp [h] at hd
  | some d0 =>
    simp only [h, Option.map_some', Option.some.injEq] at hd
    subst hd
    simp at hp

/-- An edge after a complete promotion either points at the new current
version or was there before. -/
theorem edge_after_promotion (emotes : ObjectID → Option EmoteDoc) (c n a b : ObjectID)
    (h : parentEdge (UpdateOne (UpdateMany emotes c n) n) a b) :
    a ≠ n ∧ (b = n ∨ parentEdge emotes a b) := by
  have han : a ≠ n := by
    intro han
    subst han
    exact no_edge_from_new_current emotes c a b h
  refine ⟨han, ?_⟩
  obtain ⟨d, hd, hp⟩ := h
  simp only [UpdateOne, han, if_false] at hd
  unfold UpdateMany at hd
  cases h0 : emotes a with
  | none => simp [h0] at hd
  | some d0 =>
    simp only [h0, Option.map_some', Option.some.injEq] at hd
    by_cases hcond : (a != n && d0.parent_id == some c && d0.status == EmoteStatusLive) = true
    · simp only [hcond, if_true] at hd
      subst hd
      left
      simpa using hp.symm
    · simp only [hcond] at hd
      subst hd
      right
      exact ⟨_, h0, hp⟩

/-- A path after a complete promotion either ends at the new current version
or was a path before. -/
theorem path_after_promotion (emotes : ObjectID → Option EmoteDoc) (c n a b : ObjectID)
    (h : Relation.TransGen (parentEdge (UpdateOne (UpdateMany emotes c n) n)) a b) :
    b = n ∨ Relation.TransGen (parentEdge emotes) a b := by
  induction h with
  | single hab =>
    rcases (edge_after_promotion emotes c n a _ hab).2 with h | h
    · exact Or.inl h
    · exact Or.inr (Relation.TransGen.single h)
  | tail _ hbc ih =>
    obtain ⟨hbn, hc⟩ := edge_after_promotion emotes c n _ _ hbc
    rcases hc with hc | hc
    · exact Or.inl hc
    · rcases ih with ih | ih
      · exact absurd ih hbn
      · exact Or.inr (Relation.TransGen.tail ih hc)

/-- A path starts with an edge. -/
theorem first_edge_of_path {r : ObjectID → ObjectID → Prop} {a b : ObjectID}
    (h : Relation.TransGen r a b) : ∃ c, r a c := by
  induction h with
  | single hab => exact ⟨_, hab⟩
  | tail _ _ ih => exact ih

/-- A complete promotion keeps the version graph free of cycles. -/
theorem Acyclic_after_promotion (emotes : ObjectID → Option EmoteDoc) (c n : ObjectID)
    (h : Acyclic emotes) : Acyclic (UpdateOne (UpdateMany emotes c n) n) := by
  intro a hcyc
  rcases path_after_promotion emotes c n a a hcyc with han | hold
  · subst han
    obtain ⟨b, hb⟩ := first_edge_of_path hcyc
    exact no_edge_from_new_current emotes c a b hb
  · exact h a hold

/-- A call of `SetCurrentVersion` that is not cut between its two writes keeps
the version graph free of cycles. -/
theorem SetCurrentVersion_Acyclic (flt : Faults) (inst : Mongo) (em : EmoteMutation)
    (emote : Option Emote) (hcut : flt.cutsPromotion = false)
    (h : Acyclic inst.store.emotes) :
    Acyclic (SetCurrentVersion flt inst em emote).inst.store.emotes := by
  rw [SetCurrentVersion_store]
  cases em.target with
  | none => exact h
  | some cur =>
    cases emote with
    | none => exact h
    | some e =>
      simp only
      by_cases hm : flt.UpdateMany = true
      · simpa [hm] using h
      · have ho : flt.UpdateOne = false := by
          simpa [Faults.cutsPromotion, hm] using hcut
        simpa [hm, ho] using Acyclic_after_promotion inst.store.emotes cur.ID e.ID h

/-- C4. Starting from a store whose `parent_id` relation has no cycle, after
any finite sequence of promotions by `SetCurrentVersion` (re-parent the live
children of the emote of the mutation onto the new current version, then unset
`parent_id` and `version` on the new current version) the relation still has
no cycle: no emote is its own parent, directly or transitively. A call in the
sequence may fail before its first write; none is cut between its two writes. -/
theorem promotions_Acyclic (inst : Mongo) (steps : List Promotion)
    (hcut : ∀ s ∈ steps, s.1.cutsPromotion = false)
    (h : Acyclic inst.store.emotes) :
    Acyclic (promotions inst steps).store.emotes := by
  induction steps generalizing inst with
  | nil => exact h
  | cons s rest ih =>
    have hs : s.1.cutsPromotion = false := hcut s (List.mem_cons_self s rest)
    have hrest : ∀ s2 ∈ rest, s2.1.cutsPromotion = false :=
      fun s2 hs2 => hcut s2 (List.mem_cons_of_mem s hs2)
    exact ih (SetCurrentVersion s.1 inst s.2.1 s.2.2).inst hrest
      (SetCurrentVersion_Acyclic s.1 inst s.2.1 s.2.2 hs h)

/-- The example store has no cycle: its one edge goes from 3 to 1, and 1 has
no parent. -/
theorem Example.emotes_Acyclic : Acyclic Example.emotes := by
  intro a hcyc
  have hedge : ∀ x y, parentEdge Example.emotes x y → x = 3 ∧ y = 1 := by
    rintro x y ⟨d, hd, hp⟩
    unfold Example.emotes at hd
    split_ifs at hd with h1 h2 h3 h4 <;> simp at hd <;> subst hd <;> simp at hp
    exact ⟨h3, hp.symm⟩
  have hend : ∀ x y, Relation.TransGen (parentEdge Example.emotes) x y → y = 1 := by
    intro x y hxy
    induction hxy with
    | single hab => exact (hedge _ _ hab).2
    | tail _ hbc _ => exact (hedge _ _ hbc).2
  obtain ⟨b, hb⟩ := first_edge_of_path hcyc
  have h3 := (hedge a b hb).1
  have h1 := hend a a hcyc
  rw [h3] at h1
  exact absurd h1 (by decide)

/-- Witness of `promotions_Acyclic`: emote 2 is promoted over emote 1, then
emote 3 over emote 2. -/
theorem promotions_Acyclic_witness :
    (∀ s ∈ [((noFaults, mutation emote1 (some alice), some emote2) : Promotion),
            (noFaults, mutation emote2 (some alice), some ⟨3, 10, .Live, none, none, none⟩)],
        s.1.cutsPromotion = false) ∧
    Acyclic inst.store.emotes ∧
    Acyclic (promotions inst
      [((noFaults, mutation emote1 (some alice), some emote2) : Promotion),
       (noFaults, mutation emote2 (some alice), some ⟨3, 10, .Live, none, none, none⟩)]).store.emotes :=
  ⟨by decide, Example.emotes_Acyclic,
    promotions_Acyclic inst _ (by decide) Example.emotes_Acyclic⟩

/-- A promotion cut between its two writes can close a cycle: in a store where
5 is a version of 6 and 6 a version of 7, promoting 5 over 7 with `UpdateOne`
failing leaves 6 pointing at 5 and 5 pointing at 6. -/
theorem cut_promotion_closes_cycle :
    (SetCurrentVersion updateOneFails ⟨⟨users, chain⟩, []⟩
        (mutation ⟨7, 10, .Live, none, none, none⟩ (some alice))
        (some ⟨5, 10, .Live, some 6, none, none⟩)).inst.store.emotes 5
      = some ⟨10, .Live, some 6, none⟩ ∧
    (SetCurrentVersion updateOneFails ⟨⟨users, chain⟩, []⟩
        (mutation ⟨7, 10, .Live, none, none, none⟩ (some alice))
        (some ⟨5, 10, .Live, some 6, none, none⟩)).inst.store.emotes 6
      = some ⟨10, .Live, some 5, none⟩ := by
  constructor <;> rfl

end Mutations


/-! ## Unread moderation messages -/

namespace V3

open Example

theorem readers_pos_iff (db : Store) (id : ObjectID) :
    0 < readers db id ↔ ∃ r ∈ db.messages_read, r.MessageID = id := by
  unfold readers readStates
  rw [List.length_pos_iff_exists_mem]
  simp [List.mem_filter]

theorem read_eq_true_iff (db : Store) (id : ObjectID) :
    read db id = some true ↔ ∃ r ∈ db.messages_read, r.MessageID = id ∧ r.Read = true := by
  unfold read readStates
  rw [List.filter_filter]
  cases h : (db.messages_read.filter fun a => (a.Read == true) && (a.MessageID == id)) with
  | nil =>
    have hall := List.filter_eq_nil_iff.mp h
    simp only [List.head?_nil, Option.map_none']
    refine ⟨fun h0 => (by cases h0), ?_⟩
    rintro ⟨r, hr, hid, hread⟩
    exact absurd (by simp [hid, hread]) (hall r hr)
  | cons r rest =>
    have hr : r ∈ db.messages_read.filter fun a => (a.Read == true) && (a.MessageID == id) := by
      rw [h]
      exact List.mem_cons_self r rest
    rw [List.mem_filter] at hr
    obtain ⟨hmem, hcond⟩ := hr
    simp only [Bool.and_eq_true, beq_iff_eq] at hcond
    simp only [List.head?_cons, Option.map_some', hcond.1, true_iff]
    exact ⟨r, hmem, hcond.2, hcond.1⟩

/-- The second `$match` keeps a message exactly when it has a read-state and
none of its read-states is read. -/
theorem unreadMatch_iff (db : Store) (m : Message) :
    unreadMatch db m = true ↔
      (∃ r ∈ db.messages_read, r.MessageID = m.ID) ∧
      (∀ r ∈ db.messages_read, r.MessageID = m.ID → r.Read = false) := by
  unfold unreadMatch
  rw [Bool.and_eq_true, decide_eq_true_iff, gt_iff_lt, readers_pos_iff,
    Bool.not_eq_true', beq_eq_false_iff_ne, Ne, read_eq_true_iff]
  constructor
  · rintro ⟨h1, h2⟩
    refine ⟨h1, fun r hr hid => ?_⟩
    cases hread : r.Read with
    | false => rfl
    | true => exact absurd ⟨r, hr, hid, hread⟩ h2
  · rintro ⟨h1, h2⟩
    refine ⟨h1, ?_⟩
    rintro ⟨r, hr, hid, hread⟩
    rw [h2 r hr hid] at hread
    exact absurd hread (by decide)

/-- Without a failure of the driver, the ids `messages` returns are those of
the candidates that pass the second `$match`. -/
theorem returned_ids (env : Env) (flt : Faults) (db : Store) (filter : Message → Bool)
    (opt : messageQueryOptions) (hagg : flt.Aggregate = false) (hdec : flt.Decode = false) :
    (returned (messages env flt db filter opt)).map (fun m => m.ID)
      = ((candidates db filter opt).filter (unreadMatch db)).map (fun m => m.ID) := by
  unfold messages
  simp only [hagg, hdec]
  cases h : (candidates db filter opt).filter (unreadMatch db) with
  | nil => simp [returned]
  | cons m rest => simp [returned, Function.comp_def]

/-- C7. For every collection of messages and of read-states, with the driver
answering: the query returns a message (named by its id) if and only if it is
among the messages matching the base filter within the result cap, has at least
one read-state joined by message id, and none of its read-states has
`read = true`. -/
theorem messages_unread (env : Env) (flt : Faults) (db : Store) (filter : Message → Bool)
    (opt : messageQueryOptions) (hagg : flt.Aggregate = false) (hdec : flt.Decode = false)
    (id : ObjectID) :
    id ∈ (returned (messages env flt db filter opt)).map (fun m => m.ID) ↔
      id ∈ (candidates db filter opt).map (fun m => m.ID) ∧
      (∃ r ∈ db.messages_read, r.MessageID = id) ∧
      (∀ r ∈ db.messages_read, r.MessageID = id → r.Read = false) := by
  rw [returned_ids env flt db filter opt hagg hdec]
  simp only [List.mem_map, List.mem_filter]
  constructor
  · rintro ⟨m, ⟨hm, hmatch⟩, rfl⟩
    exact ⟨⟨m, hm, rfl⟩, (unreadMatch_iff db m).mp hmatch⟩
  · rintro ⟨⟨m, hm, rfl⟩, hcrit⟩
    exact ⟨m, ⟨hm, (unreadMatch_iff db m).mpr hcrit⟩, rfl⟩

/-- Witness of `messages_unread`: with M1 (no read-state), M2 (two read-states,
none read) and M3 (one read-state, read), the query returns exactly M2, its
author bound; M2 is returned and M1 and M3 are not. -/
theorem messages_unread_witness :
    (noFaults.Aggregate = false ∧ noFaults.Decode = false) ∧
    messages env noFaults db anyMessage ⟨none, 100⟩
      = .ok [{ M2 with Author := some ⟨10, []⟩ }] ∧
    (M2.ID ∈ (returned (messages env noFaults db anyMessage ⟨none, 100⟩)).map (fun m => m.ID) ↔
      M2.ID ∈ (candidates db anyMessage ⟨none, 100⟩).map (fun m => m.ID) ∧
      (∃ r ∈ db.messages_read, r.MessageID = M2.ID) ∧
      (∀ r ∈ db.messages_read, r.MessageID = M2.ID → r.Read = false)) ∧
    M1.ID ∉ (returned (messages env noFaults db anyMessage ⟨none, 100⟩)).map (fun m => m.ID) ∧
    M3.ID ∉ (returned (messages env noFaults db anyMessage ⟨none, 100⟩)).map (fun m => m.ID) :=
  ⟨⟨rfl, rfl⟩, rfl,
    messages_unread env noFaults db anyMessage ⟨none, 100⟩ rfl rfl M2.ID,
    by decide, by decide⟩

end V3


/-! ## Dispatch of a moderation request -/

namespace V3

open Example

/-- The existence filter finds nothing when no document of the collection
has the target among its versions (kind emote), respectively as its `_id`
(every other kind). -/
theorem find_target_none (docs : List ObjectDoc) (req : MessageDataModRequest)
    (hnone : ∀ d ∈ docs,
      if req.TargetKind = .Emote then req.TargetID ∉ d.versions else d.id ≠ req.TargetID) :
    docs.find? (targetFilter req).matches = none := by
  rw [List.find?_eq_none]
  intro d hd
  have h := hnone d hd
  unfold targetFilter
  cases hk : req.TargetKind <;> simp [hk] at h <;> simp [Filter.matches, h]

/-- C9. For every untainted builder of a moderation request whose target id
matches no document of the collection of the target kind (kind emote: no
document lists the id among its versions; other kinds: no document has it as
`_id`), the lookup itself not failing, `SendModRequestMessage` returns
`ErrInvalidRequest`; no message and no read-state is created, the database and
the builder are as they were. -/
theorem SendModRequestMessage_target_missing (env : Env) (flt : Faults) (db : Store)
    (b : MessageBuilder) (hu : b.IsTainted = false) (hf : flt.FindOne = false)
    (hnone : ∀ d ∈ db.docs (env.CollectionName b.Message.Data.TargetKind),
      if b.Message.Data.TargetKind = .Emote then b.Message.Data.TargetID ∉ d.versions
      else d.id ≠ b.Message.Data.TargetID) :
    (SendModRequestMessage env flt db (some b)).err
      = some (.ErrInvalidRequest "Target item doesn\x27t exist") ∧
    (SendModRequestMessage env flt db (some b)).db.messages = db.messages ∧
    (SendModRequestMessage env flt db (some b)).db.messages_read = db.messages_read ∧
    (SendModRequestMessage env flt db (some b)).db = db ∧
    (SendModRequestMessage env flt db (some b)).mb = some b := by
  have hfind := find_target_none _ _ hnone
  unfold SendModRequestMessage
  simp [hu, hf, hfind]

/-- Witness of `SendModRequestMessage_target_missing`: a request about emote
54, which is a version of no stored emote. -/
theorem SendModRequestMessage_target_missing_witness :
    (SendModRequestMessage env noFaults db (some ⟨request 0 .Emote 54, false⟩)).err
      = some (.ErrInvalidRequest "Target item doesn\x27t exist") ∧
    (SendModRequestMessage env noFaults db (some ⟨request 0 .Emote 54, false⟩)).db.messages
      = db.messages ∧
    (SendModRequestMessage env noFaults db (some ⟨request 0 .Emote 54, false⟩)).db.messages_read
      = db.messages_read ∧
    (SendModRequestMessage env noFaults db (some ⟨request 0 .Emote 54, false⟩)).db = db ∧
    (SendModRequestMessage env noFaults db (some ⟨request 0 .Emote 54, false⟩)).mb
      = some ⟨request 0 .Emote 54, false⟩ :=
  SendModRequestMessage_target_missing env noFaults db ⟨request 0 .Emote 54, false⟩ rfl rfl
    (by decide)

/-- C8, as stated, fails when the first call stops before the inserts: for a
request whose target does not exist the first call returns `ErrInvalidRequest`
and leaves the builder untainted, and the second call on the same builder
returns `ErrInvalidRequest` again, not `ErrMutateTaintedObject`. -/
theorem SendModRequestMessage_second_call_not_tainted :
    (SendModRequestMessage env noFaults db (some ⟨request 0 .Emote 54, false⟩)).err
      = some (.ErrInvalidRequest "Target item doesn\x27t exist") ∧
    (SendModRequestMessage env noFaults db (some ⟨request 0 .Emote 54, false⟩)).mb
      = some ⟨request 0 .Emote 54, false⟩ ∧
    (SendModRequestMessage env noFaults
        (SendModRequestMessage env noFaults db (some ⟨request 0 .Emote 54, false⟩)).db
        (SendModRequestMessage env noFaults db (some ⟨request 0 .Emote 54, false⟩)).mb).err
      = some (.ErrInvalidRequest "Target item doesn\x27t exist") ∧
    (SendModRequestMessage env noFaults
        (SendModRequestMessage env noFaults db (some ⟨request 0 .Emote 54, false⟩)).db
        (SendModRequestMessage env noFaults db (some ⟨request 0 .Emote 54, false⟩)).mb).err
      ≠ some .ErrMutateTaintedObject := by
  refine ⟨rfl, rfl, rfl, ?_⟩
  decide

/-- C8, amended. For every builder and every store: when the builder is already
tainted, or the first call of `SendModRequestMessage` gets as far as the insert
of the read-state (the target exists and neither the lookup nor the insert of
the message fails), the builder is tainted after the first call, whether the
insert of the read-state succeeds or not, and a second call on the same builder
returns `ErrMutateTaintedObject` and writes nothing, whatever the driver does. -/
theorem SendModRequestMessage_tainted_reuse (env : Env) (flt flt2 : Faults) (db : Store)
    (b : MessageBuilder)
    (h : b.IsTainted = true ∨
      (flt.FindOne = false ∧ flt.InsertMessage = false ∧
        (db.docs (env.CollectionName b.Message.Data.TargetKind)).any
          (targetFilter b.Message.Data).matches = true)) :
    (∃ b1, (SendModRequestMessage env flt db (some b)).mb = some b1 ∧ b1.IsTainted = true) ∧
    (SendModRequestMessage env flt2 (SendModRequestMessage env flt db (some b)).db
        (SendModRequestMessage env flt db (some b)).mb).err = some .ErrMutateTaintedObject ∧
    (SendModRequestMessage env flt2 (SendModRequestMessage env flt db (some b)).db
        (SendModRequestMessage env flt db (some b)).mb).db
      = (SendModRequestMessage env flt db (some b)).db ∧
    (SendModRequestMessage env flt2 (SendModRequestMessage env flt db (some b)).db
        (SendModRequestMessage env flt db (some b)).mb).mb
      = (SendModRequestMessage env flt db (some b)).mb := by
  have key : ∃ b1, (SendModRequestMessage env flt db (some b)).mb = some b1 ∧
      b1.IsTainted = true := by
    rcases h with h | ⟨hf, hi, hex⟩
    · exact ⟨b, by simp [SendModRequestMessage, h], h⟩
    · cases hu : b.IsTainted with
      | true => exact ⟨b, by simp [SendModRequestMessage, hu], hu⟩
      | false =>
        cases hfind : (db.docs (env.CollectionName b.Message.Data.TargetKind)).find?
            (targetFilter b.Message.Data).matches with
        | none =>
          rw [List.find?_eq_none] at hfind
          rw [List.any_eq_true] at hex
          obtain ⟨d, hd, hm⟩ := hex
          exact absurd hm (hfind d hd)
        | some d =>
          refine ⟨MessageBuilder.MarkAsTainted
            { b with Message := { b.Message with ID := env.InsertedID b.Message } }, ?_, rfl⟩
          by_cases hr : flt.InsertRead = true
          · simp [SendModRequestMessage, hu, hf, hi, hfind, hr]
          · simp [SendModRequestMessage, hu, hf, hi, hfind, hr]
  obtain ⟨b1, hb1, ht⟩ := key
  refine ⟨⟨b1, hb1, ht⟩, ?_, ?_, ?_⟩ <;> rw [hb1] <;> simp [SendModRequestMessage, ht]

/-- Witness of `SendModRequestMessage_tainted_reuse`: a request about emote 52,
a version of emote 50, dispatched twice; the second time the driver fails at
every call. -/
theorem SendModRequestMessage_tainted_reuse_witness :
    ((⟨request 0 .Emote 52, false⟩ : MessageBuilder).IsTainted = true ∨
      (noFaults.FindOne = false ∧ noFaults.InsertMessage = false ∧
        (db.docs (env.CollectionName (request 0 .Emote 52).Data.TargetKind)).any
          (targetFilter (request 0 .Emote 52).Data).matches = true)) ∧
    (∃ b1, (SendModRequestMessage env noFaults db (some ⟨request 0 .Emote 52, false⟩)).mb
        = some b1 ∧ b1.IsTainted = true) ∧
    (SendModRequestMessage env allFaults
        (SendModRequestMessage env noFaults db (some ⟨request 0 .Emote 52, false⟩)).db
        (SendModRequestMessage env noFaults db (some ⟨request 0 .Emote 52, false⟩)).mb).err
      = some .ErrMutateTaintedObject ∧
    (SendModRequestMessage env allFaults
        (SendModRequestMessage env noFaults db (some ⟨request 0 .Emote 52, false⟩)).db
        (SendModRequestMessage env noFaults db (some ⟨request 0 .Emote 52, false⟩)).mb).db
      = (SendModRequestMessage env noFaults db (some ⟨request 0 .Emote 52, false⟩)).db ∧
    (SendModRequestMessage env allFaults
        (SendModRequestMessage env noFaults db (some ⟨request 0 .Emote 52, false⟩)).db
        (SendModRequestMessage env noFaults db (some ⟨request 0 .Emote 52, false⟩)).mb).mb
      = (SendModRequestMessage env noFaults db (some ⟨request 0 .Emote 52, false⟩)).mb :=
  ⟨Or.inr ⟨rfl, rfl, by decide⟩,
    SendModRequestMessage_tainted_reuse env noFaults allFaults db ⟨request 0 .Emote 52, false⟩
      (Or.inr ⟨rfl, rfl, by decide⟩)⟩

end V3


/-! ## What the code decides and stores, in general -/

namespace Mutations

/-- What the rights check of the code decides, for a present actor and emote:
it succeeds exactly when the actor owns the emote, or the emote is unowned or
owned by another, its owner is not loaded, the lookup reports no document, and
the actor holds `EditAnyEmote`. -/
theorem checkEmoteRights_ok_iff (env : Env) (flt : Faults) (inst : Mongo) (a : User)
    (emote : Emote) :
    checkEmoteRights env flt inst (some a) (some emote) = .ok () ↔
      (emote.OwnerID = a.ID ∧ (IsZero emote.OwnerID = true → env.HasPermission a .EditAnyEmote = true)) ∨
      (emote.OwnerID ≠ a.ID ∧ emote.Owner = none ∧
        findOwner env flt inst emote.OwnerID = some .ErrNoDocuments ∧
        env.HasPermission a .EditAnyEmote = true) := by
  unfold checkEmoteRights
  simp only [HasPermission, Option.map_some']
  by_cases hz : IsZero emote.OwnerID = true
  · cases hp : env.HasPermission a .EditAnyEmote with
    | false => simp [hz, hp]
    | true =>
      by_cases hid : emote.OwnerID = a.ID
      · simp [hz, hp, hid]
      · cases hown : emote.Owner with
        | some o => simp [hz, hp, hid, hown]
        | none =>
          cases hfo : findOwner env flt inst emote.OwnerID with
          | none => simp [hz, hp, hid, hown, hfo]
          | some e => cases e <;> simp [hz, hp, hid, hown, hfo]
  · by_cases hid : emote.OwnerID = a.ID
    · have hz2 : IsZero a.ID = false := by
        rw [← hid]
        simpa using hz
      simp [hid, hz2]
    · cases hown : emote.Owner with
      | some o => simp [hz, hid, hown]
      | none =>
        cases hfo : findOwner env flt inst emote.OwnerID with
        | none => simp [hz, hid, hown, hfo]
        | some e =>
          cases hp : env.HasPermission a .EditAnyEmote <;> cases e <;>
            simp [hz, hid, hown, hfo, hp]

/-- With the update document of `UpdateMany` refused, no non-diverging call of
`ToVersion` returns without error. -/
theorem ToVersion_updating_refused (env : Env) (flt : Faults) (inst : Mongo)
    (em : EmoteMutation) (parentEmote : Option Emote) (opt : CreateVersionOptions)
    (hd : opt.Diverges = false) (hm : flt.UpdateMany = true) :
    (ToVersion env flt inst em parentEmote opt).result ≠ .ok () := by
  intro hok
  unfold ToVersion at hok
  cases hb : em.EmoteBuilder with
  | none => simp [hb] at hok
  | some eb =>
    cases ht : eb.Emote with
    | none => simp [hb, ht] at hok
    | some t =>
      simp only [hb, ht] at hok
      by_cases hperm : (match em.Actor with
          | some a => !env.HasPermission a .EditEmote
          | none => false) = true
      · simp [hperm] at hok
      · simp only [hperm, if_false] at hok
        cases h1 : checkEmoteRights env flt inst em.Actor (some t) with
        | err e => simp [h1] at hok
        | panic => simp [h1] at hok
        | ok u1 =>
          simp only [h1] at hok
          cases h2 : checkEmoteRights env flt inst em.Actor parentEmote with
          | err e => simp [h2] at hok
          | panic => simp [h2] at hok
          | ok u2 =>
            simp only [h2] at hok
            cases parentEmote with
            | none => simp at hok
            | some parent =>
              unfold FindOneAndUpdate at hok
              by_cases hf : flt.FindOneAndUpdate = true
              · simp [hf] at hok
              · cases hdoc : inst.store.emotes t.ID with
                | none => simp [hf, hdoc] at hok
                | some d =>
                  have hv := (UpdateMap_apply_staged eb.Update d parent.ID
                    ⟨opt.Tag, false, env.Now⟩).2
                  simp [hf, hdoc, EmoteBuilder.SetVersioningData, EmoteBuilder.SetParentID,
                    ht, Emote.Decode, hv, hd, SetCurrentVersion, hm] at hok

/-- With the update document of `UpdateMany` refused, a non-diverging call that
passes the checks and finds the target in storage returns the error of the
driver after two writes were issued; the target is stored with
`parent_id = parent.ID` and the versioning record of the call, and the target
in memory has `ParentID = parent.ID` and the same record. -/
theorem ToVersion_updating_run (env : Env) (flt : Faults) (inst : Mongo)
    (em : EmoteMutation) (parent : Emote) (opt : CreateVersionOptions)
    (eb : EmoteBuilder) (t : Emote) (d : EmoteDoc)
    (hb : em.EmoteBuilder = some eb) (ht : eb.Emote = some t)
    (hd : opt.Diverges = false) (hm : flt.UpdateMany = true)
    (hperm : ∀ a, em.Actor = some a → env.HasPermission a .EditEmote = true)
    (h1 : checkEmoteRights env flt inst em.Actor (some t) = .ok ())
    (h2 : checkEmoteRights env flt inst em.Actor (some parent) = .ok ())
    (hf : flt.FindOneAndUpdate = false) (hdoc : inst.store.emotes t.ID = some d) :
    (ToVersion env flt inst em (some parent) opt).result = .err .Driver ∧
    (ToVersion env flt inst em (some parent) opt).inst.writes
      = inst.writes ++ [.FindOneAndUpdate t.ID, .UpdateMany t.ID parent.ID] ∧
    (∃ d2, (ToVersion env flt inst em (some parent) opt).inst.store.emotes t.ID = some d2 ∧
      d2.parent_id = some parent.ID ∧ d2.version = some ⟨opt.Tag, false, env.Now⟩) ∧
    (∃ e, (ToVersion env flt inst em (some parent) opt).em.target = some e ∧
      e.ParentID = some parent.ID ∧ e.Versioning = some ⟨opt.Tag, false, env.Now⟩) := by
  have hstaged := UpdateMap_apply_staged eb.Update d parent.ID ⟨opt.Tag, false, env.Now⟩
  have hpermB : (match em.Actor with
      | some a => !env.HasPermission a .EditEmote
      | none => false) = false := by
    cases ha : em.Actor with
    | none => rfl
    | some a => simp [hperm a ha]
  unfold ToVersion
  simp only [hb, ht, hpermB, h1, h2]
  unfold FindOneAndUpdate
  simp [hf, hdoc, EmoteBuilder.SetVersioningData, EmoteBuilder.SetParentID, ht,
    Emote.Decode, hstaged.1, hstaged.2, hd, SetCurrentVersion, hm, Mongo.issue,
    Mongo.withEmotes, EmoteMutation.target]

end Mutations

end Common
